import Mathlib

/-!
Shallow embedding of the DOASD shrinkage covariance estimator
(src/doasd_estimation.py).  Sample matrices are functions
`Fin n → Fin p → ℚ` (n observations, p features); covariance matrices are
`Matrix (Fin p) (Fin p) ℚ`.  Exact rational arithmetic stands in for the
floating-point arithmetic of the source; numpy results that are NaN or
infinite (degrees-of-freedom clipping in np.cov, division by a zero
denominator) are modelled as `none`.
-/

namespace DOASDEstimation

/-- Per-feature mean over the observations, as computed inside
`np.cov(X, rowvar=False)`. -/
def colMean (n p : ℕ) (X : Fin n → Fin p → ℚ) (i : Fin p) : ℚ :=
  (∑ k, X k i) / (n : ℚ)

/-- Entry (i, j) of `np.cov(X, rowvar=False)` with numpy's default
`ddof = 1`: the centered cross products summed over the n observations and
divided by n - 1. -/
def npCovEntry (n p : ℕ) (X : Fin n → Fin p → ℚ) (i j : Fin p) : ℚ :=
  (∑ k, (X k i - colMean n p X i) * (X k j - colMean n p X j)) / ((n : ℚ) - 1)

/-- `np.cov(X, rowvar=False)` (default `ddof = 1`), used at lines 380, 439
and 483 of the source.  When the normalization factor `n - ddof` is not
positive (n ≤ 1), numpy emits a degrees-of-freedom RuntimeWarning and every
entry of the result is NaN; `none` models that non-numeric outcome. -/
def npCov (n p : ℕ) (X : Fin n → Fin p → ℚ) :
    Option (Matrix (Fin p) (Fin p) ℚ) :=
  if 2 ≤ n then some (Matrix.of fun i j => npCovEntry n p X i j) else none

/-- `np.diag(np.diag(M))`: the diagonal of M placed on an otherwise zero
matrix. -/
def diagDiag (p : ℕ) (M : Matrix (Fin p) (Fin p) ℚ) :
    Matrix (Fin p) (Fin p) ℚ :=
  Matrix.of fun i j => if i = j then M i i else 0

/-- One shrinkage line of the source, applied elementwise exactly as
written there: `M * (1 - c) + np.diag(np.diag(M)) * c` (lines 491 and 492,
likewise 392-393 and 447-448). -/
def shrinkStep (p : ℕ) (M : Matrix (Fin p) (Fin p) ℚ) (c : ℚ) :
    Matrix (Fin p) (Fin p) ℚ :=
  Matrix.of fun i j => M i j * (1 - c) + diagDiag p M i j * c

/-- The DOASD estimator's constructor parameters (lines 478-480). -/
structure DOASD where
  diagonal_shrinkage : ℚ
  off_diagonal_shrinkage : ℚ

/-- `DOASD.fit` (lines 482-495): the empirical covariance
`np.cov(X, rowvar=False)`, then the diagonal blend, then the off-diagonal
blend; the returned matrix models the stored `self.covariance_`.  `none`
propagates np.cov's NaN outcome for n ≤ 1. -/
def DOASD.fit (self : DOASD) (n p : ℕ) (X : Fin n → Fin p → ℚ) :
    Option (Matrix (Fin p) (Fin p) ℚ) :=
  (npCov n p X).map fun emp_cov =>
    shrinkStep p (shrinkStep p emp_cov self.diagonal_shrinkage)
      self.off_diagonal_shrinkage

/-- `diag_shrinkage = 1 - (n_features + 1) / n_samples` (line 443 of the
source, inside `compute_rmse`); the source applies no clamping to it. -/
def adaptiveDiagShrinkage (n p : ℕ) : ℚ :=
  1 - ((p : ℚ) + 1) / (n : ℚ)

/-- `off_diag_shrinkage = 1 - np.sum(np.diag(emp_cov)) / np.sum(emp_cov)`
(line 444 of the source).  The source has no guard on the denominator: when
`np.sum(emp_cov)` is zero, numpy's float division returns inf or NaN with
only a RuntimeWarning; `none` models that non-finite outcome. -/
def adaptiveOffDiagShrinkage (p : ℕ) (E : Matrix (Fin p) (Fin p) ℚ) :
    Option ℚ :=
  if (∑ i, ∑ j, E i j) = 0 then none
  else some (1 - (∑ i, E i i) / (∑ i, ∑ j, E i j))

/-- The shrunk covariance computed inside `compute_rmse` (lines 437-448):
the adaptive DOASD variant, with both intensities derived from the data and
used unclamped in the two blend lines. -/
def adaptiveShrunkCov (n p : ℕ) (X : Fin n → Fin p → ℚ) :
    Option (Matrix (Fin p) (Fin p) ℚ) :=
  match npCov n p X with
  | none => none
  | some E =>
      (adaptiveOffDiagShrinkage p E).map fun od =>
        shrinkStep p (shrinkStep p E (adaptiveDiagShrinkage n p)) od

/-- The covariance formula as the spec states it (population normalization):
`C[i][j] = (1/n) * Σ_k (x_k[i] - mean[i]) * (x_k[j] - mean[j])`.  Stated
from the spec's words, for comparison with `npCov`. -/
def popCov (n p : ℕ) (X : Fin n → Fin p → ℚ) : Matrix (Fin p) (Fin p) ℚ :=
  Matrix.of fun i j =>
    (∑ k, (X k i - colMean n p X i) * (X k j - colMean n p X j)) / (n : ℚ)

/-- The spec's one-stage blend toward the diagonal target, in matrix
notation as the spec writes it: `(1 - c) * M + c * diag(diag(M))`.  Stated
from the spec's words, for comparison with `shrinkStep`. -/
def specDiagBlend (p : ℕ) (M : Matrix (Fin p) (Fin p) ℚ) (c : ℚ) :
    Matrix (Fin p) (Fin p) ℚ :=
  (1 - c) • M + c • Matrix.diagonal (fun i => M i i)

/-- `sklearn.metrics.mean_squared_error` applied to the raveled p*p entries
of the two matrices, as in lines 231 and 451 of the source. -/
def meanSquaredError (p : ℕ) (A B : Matrix (Fin p) (Fin p) ℚ) : ℚ :=
  (∑ i, ∑ j, (A i j - B i j) ^ 2) / ((p : ℚ) * (p : ℚ))

/-- `np.sqrt(mean_squared_error(A.ravel(), B.ravel()))`: the evaluator's
RMSE (lines 227-231 and 451 of the source), at real-number precision. -/
noncomputable def rmse (p : ℕ) (A B : Matrix (Fin p) (Fin p) ℚ) : ℝ :=
  Real.sqrt ((meanSquaredError p A B : ℚ) : ℝ)

instance instDecEqMat (p : ℕ) : DecidableEq (Matrix (Fin p) (Fin p) ℚ) :=
  inferInstanceAs (DecidableEq (Fin p → Fin p → ℚ))

/-- The two blend lines of the source, written elementwise, coincide with
the spec's matrix-notation one-stage blend at the same intensity. -/
lemma shrinkStep_eq_specDiagBlend (p : ℕ) (M : Matrix (Fin p) (Fin p) ℚ)
    (c : ℚ) : shrinkStep p M c = specDiagBlend p M c := by
  ext i j
  by_cases h : i = j <;>
    simp [shrinkStep, diagDiag, specDiagBlend, Matrix.diagonal, h] <;> ring

/-- Entries of the empirical covariance are symmetric in their indices. -/
lemma npCov_entry_symm (n p : ℕ) (X : Fin n → Fin p → ℚ)
    (E : Matrix (Fin p) (Fin p) ℚ) (hE : npCov n p X = some E)
    (i j : Fin p) : E i j = E j i := by
  rw [npCov] at hE
  split at hE
  · rw [Option.some.injEq] at hE
    subst hE
    simp only [Matrix.of_apply, npCovEntry]
    congr 1
    exact Finset.sum_congr rfl fun k _ => mul_comm _ _
  · exact Option.noConfusion hE

/-- Each blend line preserves entrywise symmetry. -/
lemma shrinkStep_symm (p : ℕ) (M : Matrix (Fin p) (Fin p) ℚ) (c : ℚ)
    (hM : ∀ i j, M i j = M j i) (i j : Fin p) :
    shrinkStep p M c i j = shrinkStep p M c j i := by
  by_cases h : i = j
  · subst h; rfl
  · simp [shrinkStep, diagDiag, if_neg h, if_neg (Ne.symm h), hM i j]

/-- Each blend line leaves every diagonal entry unchanged. -/
lemma shrinkStep_apply_diag (p : ℕ) (M : Matrix (Fin p) (Fin p) ℚ) (c : ℚ)
    (i : Fin p) : shrinkStep p M c i i = M i i := by
  simp only [shrinkStep, Matrix.of_apply, diagDiag, if_true,
    eq_self_iff_true]
  ring

/-- C1: for every empirical covariance matrix E computed by the fit from
the samples, and shrinkage parameters d, o in [0,1], DOASD's fit produces
the two-stage estimate: first D = E * (1 - d) + diag(diag(E)) * d, then
S = D * (1 - o) + diag(diag(D)) * o, and stores S as the fitted
covariance. -/
theorem DOASD_fit_two_stage (n p : ℕ) (X : Fin n → Fin p → ℚ) (d o : ℚ)
    (hd0 : 0 ≤ d) (hd1 : d ≤ 1) (ho0 : 0 ≤ o) (ho1 : o ≤ 1)
    (E : Matrix (Fin p) (Fin p) ℚ) (hE : npCov n p X = some E) :
    (DOASD.mk d o).fit n p X
      = some (specDiagBlend p (specDiagBlend p E d) o) := by
  simp only [DOASD.fit, hE, Option.map_some', Option.some.injEq,
    shrinkStep_eq_specDiagBlend]

/-- Witness for C1 at X = [[0,0],[2,4]], d = 1/2, o = 1/10. -/
theorem DOASD_fit_two_stage_witness :
    npCov 2 2 ![![0,0],![2,4]] = some !![2,4;4,8] ∧
    (DOASD.mk (1/2) (1/10)).fit 2 2 ![![0,0],![2,4]]
      = some (specDiagBlend 2 (specDiagBlend 2 !![2,4;4,8] (1/2)) (1/10)) := by
  have hE : npCov 2 2 ![![0,0],![2,4]] = some !![2,4;4,8] := by
    simp only [npCov, if_pos (le_refl 2), Option.some.injEq]
    ext i j
    fin_cases i <;> fin_cases j <;>
      simp [npCovEntry, colMean, Fin.sum_univ_two] <;> norm_num
  exact ⟨hE, DOASD_fit_two_stage 2 2 _ (1/2) (1/10) (by norm_num)
    (by norm_num) (by norm_num) (by norm_num) _ hE⟩

/-- C2: for every square matrix E and all d, o in [0,1], the DOASD
two-stage blend equals the single-stage shrink of E toward its diagonal
target with combined intensity 1 - (1-d)(1-o). -/
theorem DOASD_two_stage_eq_single_stage (p : ℕ)
    (E : Matrix (Fin p) (Fin p) ℚ) (d o : ℚ)
    (hd0 : 0 ≤ d) (hd1 : d ≤ 1) (ho0 : 0 ≤ o) (ho1 : o ≤ 1) :
    shrinkStep p (shrinkStep p E d) o
      = specDiagBlend p E (1 - (1 - d) * (1 - o)) := by
  ext i j
  by_cases h : i = j <;>
    simp [shrinkStep, diagDiag, specDiagBlend, Matrix.diagonal, h] <;> ring

/-- Witness for C2 at the spec's example E = [[4,2],[2,9]], d = 1/2,
o = 1/10. -/
theorem DOASD_two_stage_eq_single_stage_witness :
    shrinkStep 2 (shrinkStep 2 !![4,2;2,9] (1/2)) (1/10)
      = specDiagBlend 2 !![4,2;2,9] (1 - (1 - 1/2) * (1 - 1/10)) :=
  DOASD_two_stage_eq_single_stage 2 !![4,2;2,9] (1/2) (1/10) (by norm_num)
    (by norm_num) (by norm_num) (by norm_num)

/-- C4, counterexample: at X = [[0],[2]] (n = 2, p = 1) the covariance the
fit computes via np.cov is [[2]] (normalization by n - 1 = 1), while the
claimed population formula gives [[1]]; the code does not use population
normalization. -/
theorem npCov_not_population :
    npCov 2 1 ![![0],![2]] ≠ some (popCov 2 1 ![![0],![2]]) := by
  have h1 : npCov 2 1 ![![0],![2]] = some !![2] := by
    simp only [npCov, if_pos (le_refl 2), Option.some.injEq]
    ext i j
    fin_cases i <;> fin_cases j <;>
      simp [npCovEntry, colMean, Fin.sum_univ_two] <;> norm_num
  have h2 : popCov 2 1 ![![0],![2]] = !![1] := by
    ext i j
    fin_cases i <;> fin_cases j <;>
      simp [popCov, colMean, Fin.sum_univ_two] <;> norm_num
  rw [h1, h2]
  simp only [ne_eq, Option.some.injEq]
  intro hcontra
  have h00 := congrFun (congrFun hcontra 0) 0
  simp at h00

/-- C4, amended: the empirical covariance the fit computes uses np.cov's
default n - 1 normalization, i.e. it equals n/(n-1) times the
population-normalized covariance of the spec. -/
theorem npCov_eq_scaled_population (n p : ℕ) (X : Fin n → Fin p → ℚ)
    (E : Matrix (Fin p) (Fin p) ℚ) (hE : npCov n p X = some E) :
    E = ((n : ℚ) / ((n : ℚ) - 1)) • popCov n p X := by
  rw [npCov] at hE
  split at hE
  case isTrue hn =>
    rw [Option.some.injEq] at hE
    subst hE
    have h2 : (2 : ℚ) ≤ (n : ℚ) := by exact_mod_cast hn
    have h0 : (n : ℚ) ≠ 0 := by intro h; rw [h] at h2; norm_num at h2
    have h1 : (n : ℚ) - 1 ≠ 0 := by
      intro h
      have : (n : ℚ) = 1 := by linarith
      rw [this] at h2; norm_num at h2
    ext i j
    simp only [Matrix.of_apply, npCovEntry, popCov, Matrix.smul_apply,
      smul_eq_mul]
    field_simp
    ring
  case isFalse hn => exact Option.noConfusion hE

/-- Witness for the amended C4 at X = [[0],[2]]. -/
theorem npCov_eq_scaled_population_witness :
    npCov 2 1 ![![0],![2]] = some !![2] ∧
    (!![2] : Matrix (Fin 1) (Fin 1) ℚ)
      = (((2:ℕ) : ℚ) / (((2:ℕ) : ℚ) - 1)) • popCov 2 1 ![![0],![2]] := by
  have h1 : npCov 2 1 ![![0],![2]] = some !![2] := by
    simp only [npCov, if_pos (le_refl 2), Option.some.injEq]
    ext i j
    fin_cases i <;> fin_cases j <;>
      simp [npCovEntry, colMean, Fin.sum_univ_two] <;> norm_num
  exact ⟨h1, npCov_eq_scaled_population 2 1 ![![0],![2]] !![2] h1⟩

/-- C5: with both shrinkage parameters zero, DOASD's fit returns exactly
the empirical covariance of the samples. -/
theorem DOASD_fit_zero_shrinkage (n p : ℕ) (X : Fin n → Fin p → ℚ)
    (E : Matrix (Fin p) (Fin p) ℚ) (hE : npCov n p X = some E) :
    (DOASD.mk 0 0).fit n p X = some E := by
  simp only [DOASD.fit, hE, Option.map_some', Option.some.injEq]
  ext i j
  simp [shrinkStep, diagDiag]

/-- Witness for C5 at X = [[1,0],[0,1]]. -/
theorem DOASD_fit_zero_shrinkage_witness :
    npCov 2 2 ![![1,0],![0,1]] = some !![1/2,-1/2;-1/2,1/2] ∧
    (DOASD.mk 0 0).fit 2 2 ![![1,0],![0,1]]
      = some !![1/2,-1/2;-1/2,1/2] := by
  have hE : npCov 2 2 ![![1,0],![0,1]] = some !![1/2,-1/2;-1/2,1/2] := by
    simp only [npCov, if_pos (le_refl 2), Option.some.injEq]
    ext i j
    fin_cases i <;> fin_cases j <;>
      simp [npCovEntry, colMean, Fin.sum_univ_two] <;> norm_num
  exact ⟨hE, DOASD_fit_zero_shrinkage 2 2 ![![1,0],![0,1]] _ hE⟩

/-- C3, code evaluation at a failing input: for n = 2 samples of p = 2
features (so n ≤ p + 1), the adaptive variant computes
diag_shrinkage = 1 - (p+1)/n = -1/2 and feeds that negative value,
unclamped, into the blend: on X = [[0,0],[2,4]] (empirical covariance
[[2,4],[4,8]]) the off-diagonal entry of the result is 10/3, i.e. the
off-diagonal was amplified by the factor 1 - (-1/2) = 3/2 instead of being
held at a clamped intensity of 0. -/
theorem adaptiveDiagShrinkage_negative_used :
    adaptiveDiagShrinkage 2 2 = -(1/2) ∧ adaptiveDiagShrinkage 2 2 < 0 ∧
    adaptiveShrunkCov 2 2 ![![0,0],![2,4]] = some !![2, 10/3; 10/3, 8] := by
  refine ⟨by norm_num [adaptiveDiagShrinkage],
    by norm_num [adaptiveDiagShrinkage], ?_⟩
  have hE : npCov 2 2 ![![0,0],![2,4]] = some !![2,4;4,8] := by
    simp only [npCov, if_pos (le_refl 2), Option.some.injEq]
    ext i j
    fin_cases i <;> fin_cases j <;>
      simp [npCovEntry, colMean, Fin.sum_univ_two] <;> norm_num
  simp only [adaptiveShrunkCov, hE, adaptiveOffDiagShrinkage]
  rw [if_neg (by norm_num [Fin.sum_univ_two])]
  simp only [Option.map_some', Option.some.injEq]
  ext i j
  fin_cases i <;> fin_cases j <;>
    simp [shrinkStep, diagDiag, adaptiveDiagShrinkage, Fin.sum_univ_two] <;>
    norm_num

/-- C6, code evaluation at the failing input: on an empty sample matrix
(n = 0 rows, p = 2 columns) DOASD's fit just forwards np.cov's NaN-filled
result (modelled `none`); it raises no InvalidInputError — no such
exception class exists anywhere in the source, and numpy only emits a
RuntimeWarning. -/
theorem DOASD_fit_empty_no_error :
    (DOASD.mk (1/2) (1/10)).fit 0 2 (fun k _ => k.elim0) = none := rfl

/-- C7, code evaluation at the failing input: on X = [[0,0],[1,-1]] the
empirical covariance is [[1/2,-1/2],[-1/2,1/2]], whose entries sum to 0;
the adaptive off-diagonal intensity 1 - trace/sum divides by that zero
denominator with no guard, so the computation yields a non-finite value
(modelled `none`) instead of raising InvalidInputError. -/
theorem adaptive_zero_denominator_unguarded :
    npCov 2 2 ![![0,0],![1,-1]] = some !![1/2,-1/2;-1/2,1/2] ∧
    (∑ i, ∑ j, (!![1/2,-1/2;-1/2,1/2] : Matrix (Fin 2) (Fin 2) ℚ) i j) = 0 ∧
    adaptiveShrunkCov 2 2 ![![0,0],![1,-1]] = none := by
  have hE : npCov 2 2 ![![0,0],![1,-1]] = some !![1/2,-1/2;-1/2,1/2] := by
    simp only [npCov, if_pos (le_refl 2), Option.some.injEq]
    ext i j
    fin_cases i <;> fin_cases j <;>
      simp [npCovEntry, colMean, Fin.sum_univ_two] <;> norm_num
  refine ⟨hE, by norm_num [Fin.sum_univ_two], ?_⟩
  simp only [adaptiveShrunkCov, hE, adaptiveOffDiagShrinkage]
  rw [if_pos (by norm_num [Fin.sum_univ_two])]
  rfl

/-- C8: whenever DOASD's fit produces a covariance matrix (any sample
matrix, any shrinkage parameters in [0,1]), that matrix is symmetric. -/
theorem DOASD_fit_symmetric (n p : ℕ) (X : Fin n → Fin p → ℚ) (d o : ℚ)
    (hd0 : 0 ≤ d) (hd1 : d ≤ 1) (ho0 : 0 ≤ o) (ho1 : o ≤ 1)
    (S : Matrix (Fin p) (Fin p) ℚ)
    (hS : (DOASD.mk d o).fit n p X = some S) : S.IsSymm := by
  cases hnp : npCov n p X with
  | none =>
    simp only [DOASD.fit, hnp, Option.map_none'] at hS
    exact Option.noConfusion hS
  | some E =>
    simp only [DOASD.fit, hnp, Option.map_some', Option.some.injEq] at hS
    subst hS
    have hE := npCov_entry_symm n p X E hnp
    ext i j
    rw [Matrix.transpose_apply]
    exact shrinkStep_symm p _ o (fun a b => shrinkStep_symm p E d hE a b) j i

/-- Witness for C8 at X = [[0,1],[3,5]], d = 1/2, o = 1/10. -/
theorem DOASD_fit_symmetric_witness :
    (DOASD.mk (1/2) (1/10)).fit 2 2 ![![0,1],![3,5]]
      = some !![9/2, 27/10; 27/10, 8] ∧
    (!![9/2, 27/10; 27/10, 8] : Matrix (Fin 2) (Fin 2) ℚ).IsSymm := by
  have hfit : (DOASD.mk (1/2) (1/10)).fit 2 2 ![![0,1],![3,5]]
      = some !![9/2, 27/10; 27/10, 8] := by
    simp only [DOASD.fit, npCov, if_pos (le_refl 2), Option.map_some',
      Option.some.injEq]
    ext i j
    fin_cases i <;> fin_cases j <;>
      simp [shrinkStep, diagDiag, npCovEntry, colMean, Fin.sum_univ_two] <;>
      norm_num
  exact ⟨hfit, DOASD_fit_symmetric 2 2 ![![0,1],![3,5]] (1/2) (1/10)
    (by norm_num) (by norm_num) (by norm_num) (by norm_num) _ hfit⟩

/-- C9: the evaluator's RMSE vanishes on equal arguments and is symmetric
in its two arguments (matrices of equal shape p x p). -/
theorem rmse_self_zero_and_symm (p : ℕ) (A B : Matrix (Fin p) (Fin p) ℚ) :
    rmse p A A = 0 ∧ rmse p A B = rmse p B A := by
  constructor
  · have h : meanSquaredError p A A = 0 := by simp [meanSquaredError]
    unfold rmse
    rw [h]
    simp
  · have h : meanSquaredError p A B = meanSquaredError p B A := by
      unfold meanSquaredError
      congr 1
      exact Finset.sum_congr rfl fun i _ =>
        Finset.sum_congr rfl fun j _ => by ring
    unfold rmse
    rw [h]

/-- C10: each blend stage leaves every diagonal entry unchanged, for all
rational shrinkage parameters (not only those in [0,1]); consequently the
diagonal of the fitted covariance equals the diagonal of the empirical
covariance exactly. -/
theorem shrink_preserves_diagonal :
    (∀ (p : ℕ) (M : Matrix (Fin p) (Fin p) ℚ) (c : ℚ) (i : Fin p),
        shrinkStep p M c i i = M i i) ∧
    (∀ (n p : ℕ) (X : Fin n → Fin p → ℚ) (d o : ℚ)
        (E S : Matrix (Fin p) (Fin p) ℚ),
        npCov n p X = some E → (DOASD.mk d o).fit n p X = some S →
        ∀ i, S i i = E i i) := by
  refine ⟨shrinkStep_apply_diag, ?_⟩
  intro n p X d o E S hE hS i
  simp only [DOASD.fit, hE, Option.map_some', Option.some.injEq] at hS
  subst hS
  rw [shrinkStep_apply_diag, shrinkStep_apply_diag]

/-- Witness for C10 at X = [[5,0],[1,4]] with parameters d = 3, o = -2
outside [0,1]: the fitted off-diagonal entries change from -8 to 48, yet
the diagonal 8, 8 is untouched. -/
theorem shrink_preserves_diagonal_witness :
    npCov 2 2 ![![5,0],![1,4]] = some !![8,-8;-8,8] ∧
    (DOASD.mk 3 (-2)).fit 2 2 ![![5,0],![1,4]] = some !![8,48;48,8] ∧
    (!![8,48;48,8] : Matrix (Fin 2) (Fin 2) ℚ) 0 0
      = (!![8,-8;-8,8] : Matrix (Fin 2) (Fin 2) ℚ) 0 0 := by
  have hE : npCov 2 2 ![![5,0],![1,4]] = some !![8,-8;-8,8] := by
    simp only [npCov, if_pos (le_refl 2), Option.some.injEq]
    ext i j
    fin_cases i <;> fin_cases j <;>
      simp [npCovEntry, colMean, Fin.sum_univ_two] <;> norm_num
  have hfit : (DOASD.mk 3 (-2)).fit 2 2 ![![5,0],![1,4]]
      = some !![8,48;48,8] := by
    simp only [DOASD.fit, npCov, if_pos (le_refl 2), Option.map_some',
      Option.some.injEq]
    ext i j
    fin_cases i <;> fin_cases j <;>
      simp [shrinkStep, diagDiag, npCovEntry, colMean, Fin.sum_univ_two] <;>
      norm_num
  exact ⟨hE, hfit, shrink_preserves_diagonal.2 2 2 ![![5,0],![1,4]] 3 (-2)
    !![8,-8;-8,8] !![8,48;48,8] hE hfit 0⟩

end DOASDEstimation
